import Mathlib

/-!
Shallow embedding of `src/server.js`, a minimal Express backend with five
routes: POST /api/register, POST /api/login, POST /api/submit,
GET /api/submissions (admin-only), GET /api/users (admin-only).

Modelling conventions:
* The SQLite store (`users`, `submissions` tables) is a pair of lists in
  insertion (rowid) order; `INTEGER PRIMARY KEY` auto-assignment is
  `max rowid + 1`; the `UNIQUE` index on `users.email` makes the insert
  fail with a message containing "UNIQUE constraint".
* `bcrypt.hash(pw, 10)` is modelled symbolically: a hash is the pair of the
  random salt and the password, and `bcrypt.compare` checks the password
  against the hash's password.  The salt is an explicit parameter
  (the source's nondeterminism made explicit).
* The `jsonwebtoken` library is modelled symbolically: a signed token is an
  injective, space-free string serialization of the claims `\x7bid, email,
  role\x7d`, the issue time `iat`, and the signing secret; `jwt.verify`
  parses the string, checks the embedded secret against the server secret
  (symbolic signature check: forging requires the secret) and checks the
  24-hour expiry (`expiresIn: 24h`, rejected once `exp <= now`); on any
  failure (malformed string, wrong secret, expired, missing token) it
  yields `null`, modelled as `none`.
* Clocks are explicit `Nat` parameters (seconds); `Date.toISOString()` is
  modelled as an injective rendering of the clock value.
* JS falsiness of the relevant values (`undefined` and the empty string)
  is modelled by `truthy : Option String → Bool`.
-/

/-! ### JSON values and `JSON.stringify` -/

/-- JSON values, the payload type of POST /api/submit (`req.body`).
Numbers are restricted to integers; that restriction is irrelevant to the
claims. -/
inductive Json where
  | null
  | bool (b : Bool)
  | num (n : Int)
  | str (s : String)
  | arr (elems : List Json)
  | obj (fields : List (String × Json))

/-- Escape one character as inside a JSON string literal (quote and
backslash; control-character escapes are not modelled, no claim touches
them). -/
def jsonEscapeChar (c : Char) : String :=
  if c = '"' then "\\\"" else if c = '\\' then "\\\\" else String.mk [c]

/-- Render a JSON string literal with surrounding quotes. -/
def jsonQuote (s : String) : String :=
  "\"" ++ String.join (s.data.map jsonEscapeChar) ++ "\""

mutual

/-- Model of `JSON.stringify` as called by the submit handler. -/
def Json.stringify : Json → String
  | .null => "null"
  | .bool b => if b then "true" else "false"
  | .num n => toString n
  | .str s => jsonQuote s
  | .arr xs => "[" ++ Json.stringifyArr xs ++ "]"
  | .obj fs => "\x7b" ++ Json.stringifyObj fs ++ "\x7d"

/-- Comma-separated serialization of a JSON array's elements. -/
def Json.stringifyArr : List Json → String
  | [] => ""
  | [x] => Json.stringify x
  | x :: y :: xs => Json.stringify x ++ "," ++ Json.stringifyArr (y :: xs)

/-- Comma-separated serialization of a JSON object's fields. -/
def Json.stringifyObj : List (String × Json) → String
  | [] => ""
  | [(k, v)] => jsonQuote k ++ ":" ++ Json.stringify v
  | (k, v) :: f :: fs =>
      jsonQuote k ++ ":" ++ Json.stringify v ++ "," ++ Json.stringifyObj (f :: fs)

end

/-- `s` deserializes (via `JSON.parse`) back to the payload `j`: the stored
string is exactly the serialization of `j`.  `JSON.parse` is a left inverse
of `JSON.stringify` on serializable values (ECMA-262 library guarantee), so
this equality is what "parses back to `j`" means for strings the server
stored. -/
def deserializesTo (s : String) (j : Json) : Prop := Json.stringify j = s

/-! ### bcrypt model -/

/-- A bcrypt hash string, modelled symbolically as the salt together with
the hashed password (a one-way function is injective on this data; the
model never lets a hash be inverted by the handlers, which only ever call
`bcryptCompare`). -/
structure BcryptHash where
  salt : Nat
  pw : String
deriving DecidableEq

/-- `bcrypt.hash(pw, 10)` with explicit random salt. -/
def bcryptHash (pw : String) (salt : Nat) : BcryptHash := ⟨salt, pw⟩

/-- `bcrypt.compare(pw, hash)`. -/
def bcryptCompare (pw : String) (h : BcryptHash) : Bool := pw == h.pw

/-! ### Signed tokens: the `jsonwebtoken` model

A token is a string serialization of `(id, email, role, iat, secret)`.
Fields are terminated by `.` and escaped with `!` so that the serialization
is injective and never contains a space (real JWTs are base64url and
contain no spaces; the `Bearer <token>` header split relies on that). -/

/-- Escape one character of a token field: the escape char `!`, the field
terminator `.` and the space are escaped. -/
def escChar (c : Char) : List Char :=
  if c = '!' then ['!', '!']
  else if c = '.' then ['!', 'd']
  else if c = ' ' then ['!', 's']
  else [c]

/-- Escape a whole field. -/
def escapeChars : List Char → List Char
  | [] => []
  | c :: r => escChar c ++ escapeChars r

/-- Decode one escape character. -/
def unescChar (e : Char) : Option Char :=
  if e = '!' then some '!'
  else if e = 'd' then some '.'
  else if e = 's' then some ' '
  else none

/-- Parse one `.`-terminated escaped field, returning the field and the
rest of the input. -/
def parseField : List Char → Option (List Char × List Char)
  | [] => none
  | c :: r =>
    if c = '.' then some ([], r)
    else if c = '!' then
      match r with
      | [] => none
      | e :: r2 =>
        match unescChar e, parseField r2 with
        | some c2, some (f, rest) => some (c2 :: f, rest)
        | _, _ => none
    else
      match parseField r with
      | some (f, rest) => some (c :: f, rest)
      | none => none

/-- A `.`-terminated escaped field. -/
def encField (cs : List Char) : List Char := escapeChars cs ++ ['.']

/-- A natural number rendered as a token field (unary). -/
def natToField (n : Nat) : List Char := List.replicate n 'I'

/-- Decode a natural-number token field. -/
def fieldToNat (f : List Char) : Option Nat :=
  if f.all (fun c => c == 'I') then some f.length else none

/-- The content of a signed token: the claims, the issue time and the
secret it was signed with (symbolic signature). -/
structure SignedToken where
  id : Nat
  email : String
  role : String
  iat : Nat
  secret : String
deriving DecidableEq

/-- The character serialization of a signed token. -/
def tokenChars (t : SignedToken) : List Char :=
  encField (natToField t.id) ++ encField t.email.data ++ encField t.role.data ++
    encField (natToField t.iat) ++ encField t.secret.data

/-- The token string. -/
def renderToken (t : SignedToken) : String := String.mk (tokenChars t)

/-- Parse a token string back into its content; `none` on any malformed
input (models the JWT library's decode-and-check-signature failing). -/
def parseToken (s : String) : Option SignedToken :=
  match parseField s.data with
  | none => none
  | some (f1, r1) =>
    match fieldToNat f1, parseField r1 with
    | some i, some (f2, r2) =>
      match parseField r2 with
      | none => none
      | some (f3, r3) =>
        match parseField r3 with
        | none => none
        | some (f4, r4) =>
          match fieldToNat f4, parseField r4 with
          | some ia, some (f5, r5) =>
            if r5 = [] then some ⟨i, String.mk f2, String.mk f3, ia, String.mk f5⟩
            else none
          | _, _ => none
    | _, _ => none

/-! ### Splitting the Authorization header: JS `String.prototype.split(' ')` -/

/-- JS `str.split(sep)` for a one-character separator, over char lists. -/
def splitChar (sep : Char) : List Char → List (List Char)
  | [] => [[]]
  | c :: r =>
    if c = sep then [] :: splitChar sep r
    else
      match splitChar sep r with
      | [] => [[c]]
      | h :: t => (c :: h) :: t

/-- `auth.split(' ')[1]`: extract the token from the Authorization header
(`req.headers.authorization || ''`); `none` models JS `undefined` (header
absent, or no second space-separated field). -/
def extractToken (header : Option String) : Option String :=
  let auth := header.getD ""
  ((splitChar ' ' auth.data)[1]?).map String.mk

/-! ### The store: `brand.db` -/

/-- A row of the `users` table
(`id INTEGER PRIMARY KEY, email TEXT UNIQUE, password TEXT, role TEXT`);
`password` holds the bcrypt hash. -/
structure UserRec where
  id : Nat
  email : String
  password : BcryptHash
  role : String
deriving DecidableEq

/-- A row of the `submissions` table
(`id INTEGER PRIMARY KEY, data TEXT, createdAt TEXT`). -/
structure SubmissionRec where
  id : Nat
  data : String
  createdAt : String
deriving DecidableEq

/-- The database, rows in insertion (rowid) order. -/
structure DB where
  users : List UserRec
  submissions : List SubmissionRec
deriving DecidableEq

/-- Largest assigned id (0 for an empty table). -/
def maxId (ids : List Nat) : Nat := ids.foldr max 0

/-- SQLite `INTEGER PRIMARY KEY` auto-assignment for `users`. -/
def nextUserId (db : DB) : Nat := maxId (db.users.map UserRec.id) + 1

/-- SQLite `INTEGER PRIMARY KEY` auto-assignment for `submissions`. -/
def nextSubmissionId (db : DB) : Nat := maxId (db.submissions.map SubmissionRec.id) + 1

/-- `SELECT * FROM users WHERE email = ?` (first row in rowid order). -/
def findUserByEmail (db : DB) (email : String) : Option UserRec :=
  db.users.find? (fun u => u.email == email)

/-- `INSERT INTO users (email,password,role) VALUES (?,?,?)`; the `UNIQUE`
index on `email` rejects a duplicate with a constraint error. -/
def insertUser (db : DB) (email : String) (hash : BcryptHash) (role : String) :
    Except String DB :=
  if db.users.any (fun u => u.email == email) then
    Except.error "UNIQUE constraint failed: users.email"
  else
    Except.ok { db with users := db.users ++ [⟨nextUserId db, email, hash, role⟩] }

/-- JS `String.prototype.includes`. -/
def strIncludes (hay needle : String) : Bool := decide (needle.data <:+: hay.data)

/-- Model of `new Date().toISOString()`: an injective rendering of the
explicit clock value (exact ISO-8601 formatting is irrelevant to the
claims). -/
def isoTimestamp (now : Nat) : String := toString now ++ "Z"

/-! ### Requests, responses, token helpers -/

/-- Decoded token payload, as produced by `jwt.verify` (the `iat`/`exp`
bookkeeping claims are kept in `SignedToken`; handlers only read these
three). -/
structure Claims where
  id : Nat
  email : String
  role : String
deriving DecidableEq

/-- `\x7bid, email, role\x7d` view of a `users` row, as selected by
`SELECT id,email,role FROM users`. -/
structure UserView where
  id : Nat
  email : String
  role : String
deriving DecidableEq

/-- The JSON bodies the five handlers can answer with. -/
inductive RespBody where
  | okTrue
  | okId (id : Nat)
  | errorMsg (msg : String)
  | tokenRole (token : String) (role : String)
  | submissionList (rows : List SubmissionRec)
  | userList (rows : List UserView)
deriving DecidableEq

/-- An HTTP response: status code and JSON body. -/
structure Resp where
  status : Nat
  body : RespBody
deriving DecidableEq

/-- Body of POST /api/register; `none` models an absent field. -/
structure RegisterReq where
  email : Option String
  password : Option String
  role : Option String

/-- Body of POST /api/login. -/
structure LoginReq where
  email : Option String
  password : Option String

/-- JS truthiness of the destructured body fields: `undefined` and the
empty string are falsy (all relevant values are strings or absent). -/
def truthy : Option String → Bool
  | none => false
  | some s => !(s == "")

/-- JS `String.prototypjsToLower eCase()`, modelled character-wise (the
handlers lowercase emails before storing and before lookup). -/
def jsToLower (s : String) : String := String.mk (s.data.map Char.toLower)

/-- JS `v || d` for these values. -/
def jsOr (v : Option String) (d : String) : String :=
  match v with
  | none => d
  | some s => if s == "" then d else s

/-- `jwt.sign(payload, SECRET, \x7bexpiresIn:'24h'\x7d)`: serialize the
claims with the issue time and the secret. -/
def signToken (c : Claims) (now : Nat) (secret : String) : String :=
  renderToken ⟨c.id, c.email, c.role, now, secret⟩

/-- `verifyToken` from the source: `jwt.verify(token, SECRET)` inside
`try/catch`, `null` on any failure.  `none` for `token` models JS
`undefined`.  A token is valid iff it parses, was signed with the server
secret, and `now < iat + 86400` (24 h expiry; `jsonwebtoken` rejects once
the current time reaches `exp`). -/
def verifyToken (token : Option String) (now : Nat) (secret : String) : Option Claims :=
  match token with
  | none => none
  | some s =>
    match parseToken s with
    | none => none
    | some t =>
      if t.secret = secret ∧ now < t.iat + 86400 then some ⟨t.id, t.email, t.role⟩
      else none

/-! ### Sorting: `ORDER BY id DESC` -/

/-- Descending-id order on submission rows. -/
def subDesc (a b : SubmissionRec) : Prop := b.id ≤ a.id

instance : DecidableRel subDesc := fun _ _ => Nat.decLe _ _

instance : IsTotal SubmissionRec subDesc := ⟨fun a b => Nat.le_total b.id a.id⟩

instance : IsTrans SubmissionRec subDesc := ⟨fun _ _ _ h1 h2 => Nat.le_trans h2 h1⟩

/-- Descending-id order on user views. -/
def userDesc (a b : UserView) : Prop := b.id ≤ a.id

instance : DecidableRel userDesc := fun _ _ => Nat.decLe _ _

instance : IsTotal UserView userDesc := ⟨fun a b => Nat.le_total b.id a.id⟩

instance : IsTrans UserView userDesc := ⟨fun _ _ _ h1 h2 => Nat.le_trans h2 h1⟩

/-- `SELECT id, data, createdAt FROM submissions ORDER BY id DESC`. -/
def submissionsOrderedDesc (db : DB) : List SubmissionRec :=
  List.insertionSort subDesc db.submissions

/-- Projection of a `users` row to `\x7bid, email, role\x7d`. -/
def UserRec.view (u : UserRec) : UserView := ⟨u.id, u.email, u.role⟩

/-- `SELECT id,email,role FROM users ORDER BY id DESC`. -/
def usersOrderedDesc (db : DB) : List UserView :=
  List.insertionSort userDesc (db.users.map UserRec.view)

/-! ### The five route handlers -/

/-- POST /api/register. -/
def register (db : DB) (salt : Nat) (req : RegisterReq) : DB × Resp :=
  if !truthy req.email || !truthy req.password then
    (db, ⟨400, .errorMsg "missing email/password"⟩)
  else
    let hashed := bcryptHash (req.password.getD "") salt
    match insertUser db (jsToLower (req.email.getD "")) hashed (jsOr req.role "jobseeker") with
    | .ok db' => (db', ⟨200, .okTrue⟩)
    | .error e =>
      if strIncludes e "UNIQUE constraint" then (db, ⟨400, .errorMsg "user exists"⟩)
      else (db, ⟨500, .errorMsg e⟩)

/-- POST /api/login. -/
def login (db : DB) (now : Nat) (secret : String) (req : LoginReq) : Resp :=
  if !truthy req.email || !truthy req.password then ⟨400, .errorMsg "missing"⟩
  else
    match findUserByEmail db (jsToLower (req.email.getD "")) with
    | none => ⟨401, .errorMsg "no user"⟩
    | some row =>
      if !bcryptCompare (req.password.getD "") row.password then
        ⟨401, .errorMsg "wrong password"⟩
      else
        let token := signToken ⟨row.id, row.email, row.role⟩ now secret
        ⟨200, .tokenRole token row.role⟩

/-- POST /api/submit: stringify the body, timestamp it, insert, return the
assigned id (`last_insert_rowid()`). -/
def submit (db : DB) (now : Nat) (body : Json) : DB × Resp :=
  let str := Json.stringify body
  let createdAt := isoTimestamp now
  let id := nextSubmissionId db
  ({ db with submissions := db.submissions ++ [⟨id, str, createdAt⟩] },
    ⟨200, .okId id⟩)

/-- GET /api/submissions (admin-only). -/
def listSubmissions (db : DB) (now : Nat) (secret : String) (header : Option String) :
    Resp :=
  match verifyToken (extractToken header) now secret with
  | none => ⟨401, .errorMsg "unauthorized"⟩
  | some payload =>
    if payload.role ≠ "admin" then ⟨403, .errorMsg "forbidden"⟩
    else ⟨200, .submissionList (submissionsOrderedDesc db)⟩

/-- GET /api/users (admin-only). -/
def listUsers (db : DB) (now : Nat) (secret : String) (header : Option String) : Resp :=
  match verifyToken (extractToken header) now secret with
  | none => ⟨401, .errorMsg "unauthorized"⟩
  | some payload =>
    if payload.role ≠ "admin" then ⟨403, .errorMsg "forbidden"⟩
    else ⟨200, .userList (usersOrderedDesc db)⟩

/-- `process.env.JWT_SECRET || 'replace_this_with_a_real_secret'`. -/
def serverSecret (env : Option String) : String :=
  jsOr env "replace_this_with_a_real_secret"

/-! ### Helper lemmas: token serialization round trip -/

theorem parseField_encField : ∀ (cs rest : List Char),
    parseField (escapeChars cs ++ '.' :: rest) = some (cs, rest)
  | [], rest => by
    show parseField ('.' :: rest) = some ([], rest)
    unfold parseField
    simp
  | c :: cs, rest => by
    by_cases h1 : c = '!'
    · subst h1
      show parseField ('!' :: '!' :: (escapeChars cs ++ '.' :: rest)) = some ('!' :: cs, rest)
      unfold parseField
      simp [unescChar, parseField_encField cs rest]
    · by_cases h2 : c = '.'
      · subst h2
        show parseField ('!' :: 'd' :: (escapeChars cs ++ '.' :: rest)) = some ('.' :: cs, rest)
        unfold parseField
        simp [unescChar, parseField_encField cs rest]
      · by_cases h3 : c = ' '
        · subst h3
          show parseField ('!' :: 's' :: (escapeChars cs ++ '.' :: rest)) = some (' ' :: cs, rest)
          unfold parseField
          simp [unescChar, parseField_encField cs rest]
        · have he : escChar c = [c] := by simp [escChar, h1, h2, h3]
          show parseField (escChar c ++ escapeChars cs ++ '.' :: rest) = some (c :: cs, rest)
          rw [he]
          show parseField (c :: (escapeChars cs ++ '.' :: rest)) = some (c :: cs, rest)
          unfold parseField
          simp [h1, h2, parseField_encField cs rest]

theorem parseField_encField_last (cs : List Char) :
    parseField (escapeChars cs ++ ['.']) = some (cs, []) :=
  parseField_encField cs []

theorem escChar_no_space (c : Char) : ' ' ∉ escChar c := by
  by_cases h1 : c = '!'
  · subst h1; decide
  · by_cases h2 : c = '.'
    · subst h2; decide
    · by_cases h3 : c = ' '
      · subst h3; decide
      · simp only [escChar, if_neg h1, if_neg h2, if_neg h3, List.mem_singleton]
        exact fun hh => h3 hh.symm

theorem escapeChars_no_space : ∀ (cs : List Char), ' ' ∉ escapeChars cs
  | [] => by simp [escapeChars]
  | c :: cs => by
    simp only [escapeChars, List.mem_append]
    rintro (h | h)
    · exact escChar_no_space c h
    · exact escapeChars_no_space cs h

theorem encField_no_space (cs : List Char) : ' ' ∉ encField cs := by
  simp only [encField, List.mem_append, List.mem_singleton]
  rintro (h | h)
  · exact escapeChars_no_space cs h
  · exact absurd h (by decide)

theorem tokenChars_no_space (t : SignedToken) : ' ' ∉ tokenChars t := by
  simp only [tokenChars, List.mem_append]
  rintro ((((h | h) | h) | h) | h) <;> exact encField_no_space _ h

theorem fieldToNat_natToField (n : Nat) : fieldToNat (natToField n) = some n := by
  simp [fieldToNat, natToField, List.all_eq_true, List.mem_replicate]

theorem mk_data (s : String) : String.mk s.data = s := rfl

theorem data_mk (l : List Char) : (String.mk l).data = l := rfl

theorem parseToken_renderToken (t : SignedToken) : parseToken (renderToken t) = some t := by
  show parseToken (String.mk (tokenChars t)) = some t
  simp only [parseToken, data_mk, tokenChars, encField, List.append_assoc,
    List.cons_append, List.singleton_append]
  simp [parseField_encField, fieldToNat_natToField, mk_data]

theorem verifyToken_signToken (c : Claims) (t0 t1 : Nat) (secret : String) :
    verifyToken (some (signToken c t0 secret)) t1 secret =
      if t1 < t0 + 86400 then some c else none := by
  simp only [verifyToken, signToken, parseToken_renderToken]
  by_cases h : t1 < t0 + 86400 <;> simp [h]

theorem splitChar_of_not_mem {sep : Char} :
    ∀ {l : List Char}, sep ∉ l → splitChar sep l = [l]
  | [], _ => rfl
  | c :: r, h => by
    have hc : ¬c = sep := fun hc => h (hc ▸ List.mem_cons_self c r)
    have hr : sep ∉ r := fun hr => h (List.mem_cons_of_mem c hr)
    show splitChar sep (c :: r) = [c :: r]
    conv_lhs => unfold splitChar
    simp [hc, splitChar_of_not_mem hr]

theorem splitChar_append_sep {sep : Char} :
    ∀ {xs : List Char}, sep ∉ xs → ∀ (ys : List Char),
      splitChar sep (xs ++ sep :: ys) = xs :: splitChar sep ys
  | [], _, ys => by
    show splitChar sep (sep :: ys) = [] :: splitChar sep ys
    conv_lhs => unfold splitChar
    simp
  | x :: xs, h, ys => by
    have hx : ¬x = sep := fun hx => h (hx ▸ List.mem_cons_self x xs)
    have hxs : sep ∉ xs := fun hxs => h (List.mem_cons_of_mem x hxs)
    show splitChar sep (x :: (xs ++ sep :: ys)) = (x :: xs) :: splitChar sep ys
    conv_lhs => unfold splitChar
    simp [hx, splitChar_append_sep hxs ys]

theorem extractToken_bearer {s : String} (h : ' ' ∉ s.data) :
    extractToken (some ("Bearer " ++ s)) = some s := by
  have hdata : ("Bearer " ++ s).data = "Bearer".data ++ ' ' :: s.data := by
    rw [String.data_append]; rfl
  have hb : ' ' ∉ "Bearer".data := by decide
  show ((splitChar ' ' ("Bearer " ++ s).data)[1]?).map String.mk = some s
  rw [hdata, splitChar_append_sep hb, splitChar_of_not_mem h]
  simp [mk_data]

theorem le_maxId : ∀ {ids : List Nat} {a : Nat}, a ∈ ids → a ≤ maxId ids
  | i :: ids, a, h => by
    rcases List.mem_cons.mp h with h | h
    · subst h; exact Nat.le_max_left _ _
    · exact Nat.le_trans (le_maxId h) (Nat.le_max_right _ _)

theorem find?_append_of_all_neg {α : Type} {p : α → Bool} {l1 l2 : List α}
    (h : ∀ a ∈ l1, p a = false) : (l1 ++ l2).find? p = l2.find? p := by
  rw [List.find?_append, List.find?_eq_none.mpr (by intro a ha; simp [h a ha])]
  simp

theorem truthy_some_of_ne {s : String} (h : s ≠ "") : truthy (some s) = true := by
  simp [truthy, h]

theorem register_ok {db : DB} {salt : Nat} {e pw : String} {role : Option String}
    (he : e ≠ "") (hpw : pw ≠ "")
    (hfree : ∀ u ∈ db.users, u.email ≠ jsToLower e) :
    register db salt ⟨some e, some pw, role⟩ =
      ({ db with users := db.users ++
          [⟨nextUserId db, jsToLower e, bcryptHash pw salt, jsOr role "jobseeker"⟩] },
        ⟨200, .okTrue⟩) := by
  have hany : db.users.any (fun u => u.email == jsToLower e) = false := by
    simp only [List.any_eq_false]
    intro u hu
    simpa using hfree u hu
  simp [register, truthy_some_of_ne he, truthy_some_of_ne hpw, insertUser, hany]

theorem register_conflict {db : DB} {salt : Nat} {e pw : String} {role : Option String}
    (he : e ≠ "") (hpw : pw ≠ "")
    (htaken : ∃ u ∈ db.users, u.email = jsToLower e) :
    register db salt ⟨some e, some pw, role⟩ = (db, ⟨400, .errorMsg "user exists"⟩) := by
  have hany : db.users.any (fun u => u.email == jsToLower e) = true := by
    simp only [List.any_eq_true]
    obtain ⟨u, hu, hh⟩ := htaken
    exact ⟨u, hu, by simp [hh]⟩
  have hinc : strIncludes "UNIQUE constraint failed: users.email" "UNIQUE constraint" = true := by
    decide
  simp [register, truthy_some_of_ne he, truthy_some_of_ne hpw, insertUser, hany, hinc]

theorem login_missing {db : DB} {now : Nat} {secret : String} {req : LoginReq}
    (h : truthy req.email = false ∨ truthy req.password = false) :
    login db now secret req = ⟨400, .errorMsg "missing"⟩ := by
  rcases h with h | h <;> simp [login, h]

theorem login_no_user {db : DB} {now : Nat} {secret : String} {e pw : String}
    (he : e ≠ "") (hpw : pw ≠ "")
    (hfind : findUserByEmail db (jsToLower e) = none) :
    login db now secret ⟨some e, some pw⟩ = ⟨401, .errorMsg "no user"⟩ := by
  simp [login, truthy_some_of_ne he, truthy_some_of_ne hpw, hfind]

theorem login_wrong_password {db : DB} {now : Nat} {secret : String} {e pw : String} {u : UserRec}
    (he : e ≠ "") (hpw : pw ≠ "")
    (hfind : findUserByEmail db (jsToLower e) = some u)
    (hcmp : bcryptCompare pw u.password = false) :
    login db now secret ⟨some e, some pw⟩ = ⟨401, .errorMsg "wrong password"⟩ := by
  simp [login, truthy_some_of_ne he, truthy_some_of_ne hpw, hfind, hcmp]

theorem login_ok {db : DB} {now : Nat} {secret : String} {e pw : String} {u : UserRec}
    (he : e ≠ "") (hpw : pw ≠ "")
    (hfind : findUserByEmail db (jsToLower e) = some u)
    (hcmp : bcryptCompare pw u.password = true) :
    login db now secret ⟨some e, some pw⟩ =
      ⟨200, .tokenRole (signToken ⟨u.id, u.email, u.role⟩ now secret) u.role⟩ := by
  simp [login, truthy_some_of_ne he, truthy_some_of_ne hpw, hfind, hcmp]

/-! ### Claim theorems -/

/-- C10: an empty-string email or password is treated exactly like an
absent field: both POST /api/register and POST /api/login answer 400 for
it, because the handlers test presence by JS truthiness. -/
theorem emptyString_like_absent (db : DB) (salt now : Nat) (secret : String)
    (pw role e : Option String) :
    (register db salt ⟨some "", pw, role⟩ = register db salt ⟨none, pw, role⟩ ∧
      register db salt ⟨some "", pw, role⟩ = (db, ⟨400, .errorMsg "missing email/password"⟩)) ∧
    (register db salt ⟨e, some "", role⟩ = register db salt ⟨e, none, role⟩ ∧
      (register db salt ⟨e, some "", role⟩).2.status = 400) ∧
    (login db now secret ⟨some "", pw⟩ = login db now secret ⟨none, pw⟩ ∧
      login db now secret ⟨some "", pw⟩ = ⟨400, .errorMsg "missing"⟩) ∧
    (login db now secret ⟨e, some ""⟩ = login db now secret ⟨e, none⟩ ∧
      (login db now secret ⟨e, some ""⟩).status = 400) := by
  refine ⟨⟨?_, ?_⟩, ⟨?_, ?_⟩, ⟨?_, ?_⟩, ⟨?_, ?_⟩⟩ <;>
    simp [register, login, truthy]

/-- C6 counterexample: registering with the empty string as the `role`
field (a supplied role) persists role `"jobseeker"`, not the supplied
role, because the handler tests `role || 'jobseeker'` by JS truthiness. -/
theorem register_role_empty_cx :
    (register ⟨[], []⟩ 0 ⟨some "a@b.c", some "pw", some ""⟩).1.users.map UserRec.role =
        ["jobseeker"] ∧
    ("jobseeker" : String) ≠ "" := by
  constructor
  · decide
  · decide

/-- C6 (amended): with email and password both present (truthy), the
persisted record's email is the lowercased input email and its role is the
supplied role when a non-empty one is supplied, `"jobseeker"` when the
role is absent or the empty string; with email or password missing or
empty, the handler answers 400 and the store is unchanged. -/
theorem register_persists_email_role (db : DB) (salt : Nat) (e pw : String)
    (role : Option String) (he : e ≠ "") (hpw : pw ≠ "")
    (hfree : ∀ u ∈ db.users, u.email ≠ jsToLower e) :
    (register db salt ⟨some e, some pw, role⟩).1.users =
      db.users ++ [⟨nextUserId db, jsToLower e, bcryptHash pw salt, jsOr role "jobseeker"⟩] ∧
    (register db salt ⟨some e, some pw, role⟩).2 = ⟨200, .okTrue⟩ ∧
    (∀ r : String, r ≠ "" → jsOr (some r) "jobseeker" = r) ∧
    jsOr none "jobseeker" = "jobseeker" ∧
    jsOr (some "") "jobseeker" = "jobseeker" ∧
    (∀ req : RegisterReq, truthy req.email = false ∨ truthy req.password = false →
      register db salt req = (db, ⟨400, .errorMsg "missing email/password"⟩)) := by
  refine ⟨?_, ?_, ?_, ?_, ?_, ?_⟩
  · rw [register_ok he hpw hfree]
  · rw [register_ok he hpw hfree]
  · intro r hr; simp [jsOr, hr]
  · rfl
  · rfl
  · intro req h
    rcases h with h | h <;> simp [register, h]

/-- C6 witness. -/
theorem register_persists_email_role_witness :
    (register ⟨[], []⟩ 7 ⟨some "A@B.c", some "pw", none⟩).1.users =
      [⟨1, "a@b.c", bcryptHash "pw" 7, "jobseeker"⟩] := by
  exact ((register_persists_email_role ⟨[], []⟩ 7 "A@B.c" "pw" none
    (by decide) (by decide) (by intro u hu; simp at hu)).1).trans (by decide)

/-- C4 counterexample: for a login whose lowercased email matches no user
record, the code answers 401 with error message `"no user"`, not
`"no such user"` as the claim states. -/
theorem login_no_user_message_cx :
    login ⟨[], []⟩ 0 "s" ⟨some "a@b.c", some "x"⟩ = ⟨401, .errorMsg "no user"⟩ ∧
    login ⟨[], []⟩ 0 "s" ⟨some "a@b.c", some "x"⟩ ≠ ⟨401, .errorMsg "no such user"⟩ := by
  constructor
  · decide
  · decide

/-- C4 (amended): absent (or empty) email or password gives 400; unknown
lowercased email gives 401 with error `"no user"`; a password that fails
`bcrypt.compare` against the stored hash gives 401 `"wrong password"`; on
success the body is the token (signed over the stored record) and the
stored role. -/
theorem login_case_analysis (db : DB) (now : Nat) (secret : String) (e pw : String)
    (he : e ≠ "") (hpw : pw ≠ "") :
    (∀ req : LoginReq, truthy req.email = false ∨ truthy req.password = false →
      login db now secret req = ⟨400, .errorMsg "missing"⟩) ∧
    (findUserByEmail db (jsToLower e) = none →
      login db now secret ⟨some e, some pw⟩ = ⟨401, .errorMsg "no user"⟩) ∧
    (∀ u : UserRec, findUserByEmail db (jsToLower e) = some u →
      bcryptCompare pw u.password = false →
      login db now secret ⟨some e, some pw⟩ = ⟨401, .errorMsg "wrong password"⟩) ∧
    (∀ u : UserRec, findUserByEmail db (jsToLower e) = some u →
      bcryptCompare pw u.password = true →
      login db now secret ⟨some e, some pw⟩ =
        ⟨200, .tokenRole (signToken ⟨u.id, u.email, u.role⟩ now secret) u.role⟩) := by
  refine ⟨fun req h => login_missing h, fun h => login_no_user he hpw h,
    fun u h1 h2 => login_wrong_password he hpw h1 h2,
    fun u h1 h2 => login_ok he hpw h1 h2⟩

/-- C4 witness. -/
theorem login_case_analysis_witness :
    login ⟨[⟨1, "a@b.c", bcryptHash "pw" 3, "jobseeker"⟩], []⟩ 0 "s"
        ⟨some "a@b.c", some "pw"⟩ =
      ⟨200, .tokenRole (signToken ⟨1, "a@b.c", "jobseeker"⟩ 0 "s") "jobseeker"⟩ :=
  (login_case_analysis ⟨[⟨1, "a@b.c", bcryptHash "pw" 3, "jobseeker"⟩], []⟩ 0 "s"
      "a@b.c" "pw" (by decide) (by decide)).2.2.2
    ⟨1, "a@b.c", bcryptHash "pw" 3, "jobseeker"⟩ (by decide) (by decide)

/-- C3: registering an email that is free succeeds; registering it again
(any passwords and roles, any letter case agreeing after lowercasing)
fails with 400 `"user exists"` and leaves the store exactly as after the
first registration; the failure is a reported error response, not a
crash. -/
theorem register_twice_conflict (db : DB) (salt1 salt2 : Nat) (e1 e2 pw1 pw2 : String)
    (r1 r2 : Option String) (he1 : e1 ≠ "") (he2 : e2 ≠ "") (hpw1 : pw1 ≠ "")
    (hpw2 : pw2 ≠ "") (hcase : jsToLower e2 = jsToLower e1)
    (hfree : ∀ u ∈ db.users, u.email ≠ jsToLower e1) :
    (register db salt1 ⟨some e1, some pw1, r1⟩).2 = ⟨200, .okTrue⟩ ∧
    register (register db salt1 ⟨some e1, some pw1, r1⟩).1 salt2 ⟨some e2, some pw2, r2⟩ =
      ((register db salt1 ⟨some e1, some pw1, r1⟩).1, ⟨400, .errorMsg "user exists"⟩) := by
  rw [register_ok he1 hpw1 hfree]
  refine ⟨rfl, ?_⟩
  exact register_conflict he2 hpw2
    ⟨⟨nextUserId db, jsToLower e1, bcryptHash pw1 salt1, jsOr r1 "jobseeker"⟩,
      by simp, by simp [hcase]⟩

/-- C3 witness. -/
theorem register_twice_conflict_witness :
    register (register ⟨[], []⟩ 1 ⟨some "Al@Ex.com", some "pw", none⟩).1 2
        ⟨some "al@ex.COM", some "other", some "admin"⟩ =
      ((register ⟨[], []⟩ 1 ⟨some "Al@Ex.com", some "pw", none⟩).1,
        ⟨400, .errorMsg "user exists"⟩) :=
  (register_twice_conflict ⟨[], []⟩ 1 2 "Al@Ex.com" "al@ex.COM" "pw" "other" none
    (some "admin") (by decide) (by decide) (by decide) (by decide) (by decide)
    (by intro u hu; simp at hu)).2

/-- C1: on GET /api/submissions and GET /api/users, any request without a
valid token — header absent, malformed token, wrong signing secret, or
expired — is answered 401 `unauthorized`; a valid token whose role is not
`admin` is answered 403 `forbidden`; in both cases the body is an error
message, never submission or user data. -/
theorem admin_gate (db : DB) (now : Nat) (secret : String) :
    (∀ header, verifyToken (extractToken header) now secret = none →
      listSubmissions db now secret header = ⟨401, .errorMsg "unauthorized"⟩ ∧
      listUsers db now secret header = ⟨401, .errorMsg "unauthorized"⟩) ∧
    (∀ header c, verifyToken (extractToken header) now secret = some c →
      c.role ≠ "admin" →
      listSubmissions db now secret header = ⟨403, .errorMsg "forbidden"⟩ ∧
      listUsers db now secret header = ⟨403, .errorMsg "forbidden"⟩) ∧
    extractToken none = none ∧
    verifyToken none now secret = none ∧
    (∀ s, parseToken s = none → verifyToken (some s) now secret = none) ∧
    (∀ t : SignedToken, t.secret ≠ secret →
      verifyToken (some (renderToken t)) now secret = none) ∧
    (∀ t : SignedToken, t.iat + 86400 ≤ now →
      verifyToken (some (renderToken t)) now secret = none) := by
  refine ⟨?_, ?_, rfl, rfl, ?_, ?_, ?_⟩
  · intro header h
    constructor <;> simp [listSubmissions, listUsers, h]
  · intro header c h hrole
    constructor <;> simp [listSubmissions, listUsers, h, hrole]
  · intro s h
    simp [verifyToken, h]
  · intro t h
    simp [verifyToken, parseToken_renderToken, h]
  · intro t h
    simp [verifyToken, parseToken_renderToken]
    intro
    omega

/-- C1 witness. -/
theorem admin_gate_witness :
    listSubmissions ⟨[], [⟨1, "d", "t"⟩]⟩ 5 "s" none = ⟨401, .errorMsg "unauthorized"⟩ ∧
    listUsers ⟨[], []⟩ 5 "s"
        (some ("Bearer " ++ renderToken ⟨1, "u@x", "jobseeker", 0, "s"⟩)) =
      ⟨403, .errorMsg "forbidden"⟩ := by
  constructor
  · exact ((admin_gate ⟨[], [⟨1, "d", "t"⟩]⟩ 5 "s").1 none (by decide)).1
  · exact ((admin_gate ⟨[], []⟩ 5 "s").2.1
      (some ("Bearer " ++ renderToken ⟨1, "u@x", "jobseeker", 0, "s"⟩))
      ⟨1, "u@x", "jobseeker"⟩ (by decide) (by decide)).2

/-- C9: `verifyToken` is a total function: for the absent token
(`undefined`) and for every unparsable string it returns `none` rather
than raising, and on every input it returns either claims or `none`;
consequently the two protected routes answer 401 — never 500 — whenever
the credential fails verification. -/
theorem verifyToken_total (db : DB) (now : Nat) (secret : String) :
    verifyToken none now secret = none ∧
    (∀ s : String, parseToken s = none → verifyToken (some s) now secret = none) ∧
    (∀ token : Option String, verifyToken token now secret = none ∨
      ∃ c, verifyToken token now secret = some c) ∧
    (∀ header, (listSubmissions db now secret header).status ≠ 500 ∧
      (listUsers db now secret header).status ≠ 500) ∧
    (∀ header, verifyToken (extractToken header) now secret = none →
      (listSubmissions db now secret header).status = 401 ∧
      (listUsers db now secret header).status = 401) := by
  refine ⟨rfl, ?_, ?_, ?_, ?_⟩
  · intro s h
    simp [verifyToken, h]
  · intro token
    cases h : verifyToken token now secret with
    | none => exact Or.inl rfl
    | some c => exact Or.inr ⟨c, rfl⟩
  · intro header
    constructor <;>
    · simp only [listSubmissions, listUsers]
      cases verifyToken (extractToken header) now secret with
      | none => simp
      | some c =>
        by_cases h : c.role = "admin" <;> simp [h]
  · intro header h
    constructor <;> simp [listSubmissions, listUsers, h]

/-- C9 witness. -/
theorem verifyToken_total_witness :
    verifyToken (some "garbage no dots") 0 "s" = none ∧
    (listSubmissions ⟨[], []⟩ 0 "s" (some "Bearer not-a-jwt")).status = 401 :=
  ⟨(verifyToken_total ⟨[], []⟩ 0 "s").2.1 "garbage no dots" (by decide),
    ((verifyToken_total ⟨[], []⟩ 0 "s").2.2.2.2 (some "Bearer not-a-jwt") (by decide)).1⟩

/-- C2: a successful login issues a token signed over exactly the stored
record's `\x7bid, email, role\x7d`; verifying that token strictly before
the 24-hour expiry decodes those same claims, and verifying it strictly
after 24 hours from issuance yields `none` (rejected as invalid). -/
theorem login_token_roundtrip_expiry (db : DB) (secret e pw : String) (u : UserRec)
    (t0 t1 t2 : Nat) (he : e ≠ "") (hpw : pw ≠ "")
    (hfind : findUserByEmail db (jsToLower e) = some u)
    (hcmp : bcryptCompare pw u.password = true) :
    login db t0 secret ⟨some e, some pw⟩ =
      ⟨200, .tokenRole (signToken ⟨u.id, u.email, u.role⟩ t0 secret) u.role⟩ ∧
    (t1 < t0 + 86400 →
      verifyToken (some (signToken ⟨u.id, u.email, u.role⟩ t0 secret)) t1 secret =
        some ⟨u.id, u.email, u.role⟩) ∧
    (t0 + 86400 < t2 →
      verifyToken (some (signToken ⟨u.id, u.email, u.role⟩ t0 secret)) t2 secret =
        none) := by
  refine ⟨login_ok he hpw hfind hcmp, ?_, ?_⟩
  · intro h
    rw [verifyToken_signToken, if_pos h]
  · intro h
    rw [verifyToken_signToken, if_neg (by omega)]

/-- C2 witness (expiry checked at 24 h + 1 s, as the spec suggests). -/
theorem login_token_roundtrip_expiry_witness :
    verifyToken (some (signToken ⟨1, "a@b.c", "employer"⟩ 0 "top")) 86399 "top" =
      some ⟨1, "a@b.c", "employer"⟩ ∧
    verifyToken (some (signToken ⟨1, "a@b.c", "employer"⟩ 0 "top")) 86401 "top" =
      none := by
  have h := login_token_roundtrip_expiry ⟨[⟨1, "a@b.c", bcryptHash "pw" 3, "employer"⟩], []⟩
    "top" "a@b.c" "pw" ⟨1, "a@b.c", bcryptHash "pw" 3, "employer"⟩ 0 86399 86401
    (by decide) (by decide) (by decide) (by decide)
  exact ⟨h.2.1 (by decide), h.2.2 (by decide)⟩

theorem usersOrderedDesc_perm (db : DB) :
    (usersOrderedDesc db).Perm (db.users.map UserRec.view) :=
  List.perm_insertionSort userDesc (db.users.map UserRec.view)

theorem usersOrderedDesc_sorted (db : DB) :
    List.Pairwise userDesc (usersOrderedDesc db) :=
  List.sorted_insertionSort userDesc (db.users.map UserRec.view)

theorem usersOrderedDesc_strict (db : DB) (h : (db.users.map UserRec.id).Nodup) :
    List.Pairwise (fun a b : UserView => b.id < a.id) (usersOrderedDesc db) := by
  have hsorted := usersOrderedDesc_sorted db
  have hperm := usersOrderedDesc_perm db
  have hmap : (db.users.map UserRec.view).map UserView.id = db.users.map UserRec.id := by
    simp [List.map_map]
    intro a _
    rfl
  have hnodup : ((usersOrderedDesc db).map UserView.id).Nodup :=
    (hperm.map UserView.id).nodup_iff.mpr (hmap ▸ h)
  have hne : List.Pairwise (fun a b : UserView => a.id ≠ b.id) (usersOrderedDesc db) :=
    List.pairwise_map.mp hnodup
  exact (hsorted.and hne).imp fun hab => Nat.lt_of_le_of_ne hab.1 (Ne.symm hab.2)

/-- C7: a successful (admin) GET /api/users answers 200 with every user
record projected to exactly `\x7bid, email, role\x7d` (a permutation of
the projection of the whole table), sorted in descending identifier order
(strictly descending when ids are distinct, as the store guarantees); every
response of this endpoint is either that projected listing or an error
message, so the password hash field never appears in any response. -/
theorem users_listing (db : DB) (now : Nat) (secret : String) :
    (∀ header c, verifyToken (extractToken header) now secret = some c →
      c.role = "admin" →
      listUsers db now secret header = ⟨200, .userList (usersOrderedDesc db)⟩) ∧
    (usersOrderedDesc db).Perm (db.users.map UserRec.view) ∧
    List.Pairwise userDesc (usersOrderedDesc db) ∧
    ((db.users.map UserRec.id).Nodup →
      List.Pairwise (fun a b : UserView => b.id < a.id) (usersOrderedDesc db)) ∧
    (∀ header, (∃ m, (listUsers db now secret header).body = .errorMsg m) ∨
      (listUsers db now secret header).body = .userList (usersOrderedDesc db)) := by
  refine ⟨?_, usersOrderedDesc_perm db, usersOrderedDesc_sorted db,
    usersOrderedDesc_strict db, ?_⟩
  · intro header c h hrole
    simp [listUsers, h, hrole]
  · intro header
    simp only [listUsers]
    cases verifyToken (extractToken header) now secret with
    | none => exact Or.inl ⟨"unauthorized", rfl⟩
    | some c =>
      by_cases h : c.role = "admin"
      · simp [h]
      · simp [h]

/-- C7 witness. -/
theorem users_listing_witness :
    listUsers ⟨[⟨1, "a@b.c", bcryptHash "pw" 3, "jobseeker"⟩,
        ⟨2, "c@d.e", bcryptHash "qq" 4, "admin"⟩], []⟩ 1 "s"
        (some ("Bearer " ++ renderToken ⟨2, "c@d.e", "admin", 0, "s"⟩)) =
      ⟨200, .userList [⟨2, "c@d.e", "admin"⟩, ⟨1, "a@b.c", "jobseeker"⟩]⟩ := by
  have h := (users_listing ⟨[⟨1, "a@b.c", bcryptHash "pw" 3, "jobseeker"⟩,
      ⟨2, "c@d.e", bcryptHash "qq" 4, "admin"⟩], []⟩ 1 "s").1
    (some ("Bearer " ++ renderToken ⟨2, "c@d.e", "admin", 0, "s"⟩))
    ⟨2, "c@d.e", "admin"⟩ (by decide) (by decide)
  exact h.trans (by decide)

theorem submissionsOrderedDesc_perm (db : DB) :
    (submissionsOrderedDesc db).Perm db.submissions :=
  List.perm_insertionSort subDesc db.submissions

theorem submissionsOrderedDesc_sorted (db : DB) :
    List.Pairwise subDesc (submissionsOrderedDesc db) :=
  List.sorted_insertionSort subDesc db.submissions

theorem submissionsOrderedDesc_strict (db : DB)
    (h : (db.submissions.map SubmissionRec.id).Nodup) :
    List.Pairwise (fun a b : SubmissionRec => b.id < a.id) (submissionsOrderedDesc db) := by
  have hsorted := submissionsOrderedDesc_sorted db
  have hperm := submissionsOrderedDesc_perm db
  have hnodup : ((submissionsOrderedDesc db).map SubmissionRec.id).Nodup :=
    (hperm.map SubmissionRec.id).nodup_iff.mpr h
  have hne : List.Pairwise (fun a b : SubmissionRec => a.id ≠ b.id)
      (submissionsOrderedDesc db) :=
    List.pairwise_map.mp hnodup
  exact (hsorted.and hne).imp fun hab => Nat.lt_of_le_of_ne hab.1 (Ne.symm hab.2)

theorem nextSubmissionId_lt (db : DB) (now : Nat) (body : Json) :
    nextSubmissionId db < nextSubmissionId (submit db now body).1 := by
  have hmem : nextSubmissionId db ∈
      ((submit db now body).1.submissions.map SubmissionRec.id) := by
    simp [submit]
  have hle := le_maxId hmem
  simp only [nextSubmissionId] at hle ⊢
  omega

/-- C5: submitting a JSON payload stores `JSON.stringify` of it with a
fresh id and the timestamp, and answers that id; an admin listing
afterwards contains an entry with that id whose stored `data` string
deserializes back to the payload; identifiers of successive submissions
are strictly increasing; and the listing is all stored submissions — each
with id, raw payload string and `createdAt` — in descending identifier
order (strictly descending when ids are distinct, as the store
guarantees). -/
theorem submit_then_list (db : DB) (now1 : Nat) (body : Json) :
    (submit db now1 body).2 = ⟨200, .okId (nextSubmissionId db)⟩ ∧
    (submit db now1 body).1.submissions =
      db.submissions ++
        [⟨nextSubmissionId db, Json.stringify body, isoTimestamp now1⟩] ∧
    (∃ entry ∈ submissionsOrderedDesc (submit db now1 body).1,
      entry.id = nextSubmissionId db ∧ deserializesTo entry.data body ∧
        entry.createdAt = isoTimestamp now1) ∧
    nextSubmissionId db < nextSubmissionId (submit db now1 body).1 ∧
    (∀ now secret header c, verifyToken (extractToken header) now secret = some c →
      c.role = "admin" →
      listSubmissions (submit db now1 body).1 now secret header =
        ⟨200, .submissionList (submissionsOrderedDesc (submit db now1 body).1)⟩) ∧
    (submissionsOrderedDesc (submit db now1 body).1).Perm
      (submit db now1 body).1.submissions ∧
    List.Pairwise subDesc (submissionsOrderedDesc (submit db now1 body).1) ∧
    (((submit db now1 body).1.submissions.map SubmissionRec.id).Nodup →
      List.Pairwise (fun a b : SubmissionRec => b.id < a.id)
        (submissionsOrderedDesc (submit db now1 body).1)) := by
  refine ⟨rfl, rfl, ?_, nextSubmissionId_lt db now1 body, ?_,
    submissionsOrderedDesc_perm _, submissionsOrderedDesc_sorted _,
    submissionsOrderedDesc_strict _⟩
  · refine ⟨⟨nextSubmissionId db, Json.stringify body, isoTimestamp now1⟩, ?_, rfl, rfl, rfl⟩
    simp [submissionsOrderedDesc, List.mem_insertionSort, submit]
  · intro now secret header c h hrole
    simp [listSubmissions, h, hrole]

/-- C5 witness. -/
theorem submit_then_list_witness :
    (∃ entry ∈ submissionsOrderedDesc
        (submit ⟨[], []⟩ 11 (Json.obj [("foo", Json.str "bar")])).1,
      entry.id = 1 ∧ deserializesTo entry.data (Json.obj [("foo", Json.str "bar")]) ∧
        entry.createdAt = isoTimestamp 11) ∧
    nextSubmissionId ⟨[], []⟩ <
      nextSubmissionId (submit ⟨[], []⟩ 11 (Json.obj [("foo", Json.str "bar")])).1 ∧
    listSubmissions (submit ⟨[], []⟩ 11 (Json.obj [("foo", Json.str "bar")])).1 0 "s"
        (some ("Bearer " ++ renderToken ⟨3, "adm@x", "admin", 0, "s"⟩)) =
      ⟨200, .submissionList (submissionsOrderedDesc
        (submit ⟨[], []⟩ 11 (Json.obj [("foo", Json.str "bar")])).1)⟩ ∧
    List.Pairwise (fun a b : SubmissionRec => b.id < a.id)
      (submissionsOrderedDesc (submit ⟨[], []⟩ 11 (Json.obj [("foo", Json.str "bar")])).1) := by
  have h := submit_then_list ⟨[], []⟩ 11 (Json.obj [("foo", Json.str "bar")])
  refine ⟨h.2.2.1, h.2.2.2.1, ?_, h.2.2.2.2.2.2.2 (by decide)⟩
  exact h.2.2.2.2.1 0 "s" (some ("Bearer " ++ renderToken ⟨3, "adm@x", "admin", 0, "s"⟩))
    ⟨3, "adm@x", "admin"⟩ (by decide) (by decide)

/-- C8 counterexample: registration does restrict one role value after
all — the supplied role `""` is persisted as `"jobseeker"`, not as the
supplied role, because of the `role || 'jobseeker'` truthiness default;
so "for any role value supplied the record is persisted with that role"
is false as stated. -/
theorem register_any_role_cx :
    (register ⟨[], []⟩ 5 ⟨some "eve@x.com", some "pw", some ""⟩).1.users.map
        UserRec.role = ["jobseeker"] ∧
    ("jobseeker" : String) ≠ "" := by
  constructor
  · decide
  · decide

/-- C8 (amended): registration places no restriction on the role string
beyond the JS truthiness default: any non-empty role value supplied —
including `"admin"` — is persisted as given; in particular registering
with role `"admin"` persists that role, the subsequent login returns a
token over it, and presenting that token as `Bearer <token>` within 24
hours passes the admin gate of both GET /api/submissions and
GET /api/users (an unauthenticated caller can self-grant admin). -/
theorem register_admin_escalation (db : DB) (salt t0 t1 : Nat) (secret e pw : String)
    (he : e ≠ "") (hpw : pw ≠ "")
    (hfree : ∀ u ∈ db.users, u.email ≠ jsToLower e)
    (ht : t1 < t0 + 86400) :
    (∀ r : String, r ≠ "" → ∀ salt' : Nat,
      (register db salt' ⟨some e, some pw, some r⟩).1.users =
        db.users ++ [⟨nextUserId db, jsToLower e, bcryptHash pw salt', r⟩]) ∧
    (register db salt ⟨some e, some pw, some "admin"⟩).2 = ⟨200, .okTrue⟩ ∧
    (register db salt ⟨some e, some pw, some "admin"⟩).1.users =
      db.users ++ [⟨nextUserId db, jsToLower e, bcryptHash pw salt, "admin"⟩] ∧
    login (register db salt ⟨some e, some pw, some "admin"⟩).1 t0 secret
        ⟨some e, some pw⟩ =
      ⟨200, .tokenRole (signToken ⟨nextUserId db, jsToLower e, "admin"⟩ t0 secret)
        "admin"⟩ ∧
    listSubmissions (register db salt ⟨some e, some pw, some "admin"⟩).1 t1 secret
        (some ("Bearer " ++ signToken ⟨nextUserId db, jsToLower e, "admin"⟩ t0 secret)) =
      ⟨200, .submissionList (submissionsOrderedDesc
        (register db salt ⟨some e, some pw, some "admin"⟩).1)⟩ ∧
    listUsers (register db salt ⟨some e, some pw, some "admin"⟩).1 t1 secret
        (some ("Bearer " ++ signToken ⟨nextUserId db, jsToLower e, "admin"⟩ t0 secret)) =
      ⟨200, .userList (usersOrderedDesc
        (register db salt ⟨some e, some pw, some "admin"⟩).1)⟩ := by
  have hreg := @register_ok db salt e pw (some "admin") he hpw hfree
  have hrole : jsOr (some "admin") "jobseeker" = "admin" := rfl
  rw [hrole] at hreg
  have hfind : findUserByEmail (register db salt ⟨some e, some pw, some "admin"⟩).1
      (jsToLower e) =
      some ⟨nextUserId db, jsToLower e, bcryptHash pw salt, "admin"⟩ := by
    rw [hreg]
    show List.find? _ (db.users ++ [_]) = _
    rw [find?_append_of_all_neg]
    · simp [List.find?]
    · intro u hu
      simp [hfree u hu]
  have hcmp : bcryptCompare pw (bcryptHash pw salt) = true := by
    simp [bcryptCompare, bcryptHash]
  have hlogin := @login_ok _ t0 secret e pw _ he hpw hfind hcmp
  have hextract : extractToken
      (some ("Bearer " ++ signToken ⟨nextUserId db, jsToLower e, "admin"⟩ t0 secret)) =
      some (signToken ⟨nextUserId db, jsToLower e, "admin"⟩ t0 secret) :=
    extractToken_bearer (tokenChars_no_space _)
  have hverify : verifyToken
      (some (signToken ⟨nextUserId db, jsToLower e, "admin"⟩ t0 secret)) t1 secret =
      some ⟨nextUserId db, jsToLower e, "admin"⟩ := by
    rw [verifyToken_signToken, if_pos ht]
  refine ⟨?_, by rw [hreg], by rw [hreg], hlogin, ?_, ?_⟩
  · intro r hr salt'
    rw [@register_ok db salt' e pw (some r) he hpw hfree]
    simp [jsOr, hr]
  · simp [listSubmissions, hextract, hverify]
  · simp [listUsers, hextract, hverify]

/-- C8 witness. -/
theorem register_admin_escalation_witness :
    (register ⟨[], []⟩ 9 ⟨some "eve@x.com", some "pw", some "employer"⟩).1.users.map
        UserRec.role = ["employer"] ∧
    listUsers (register ⟨[], []⟩ 0 ⟨some "eve@x.com", some "pw", some "admin"⟩).1 1 "s"
        (some ("Bearer " ++ signToken ⟨1, "eve@x.com", "admin"⟩ 0 "s")) =
      ⟨200, .userList [⟨1, "eve@x.com", "admin"⟩]⟩ := by
  have h := register_admin_escalation ⟨[], []⟩ 0 0 1 "s" "eve@x.com" "pw"
    (by decide) (by decide) (by intro u hu; simp at hu) (by decide)
  constructor
  · exact congrArg (List.map UserRec.role) (h.1 "employer" (by decide) 9) |>.trans (by decide)
  · exact h.2.2.2.2.2.trans (by decide)
